import Mathlib

/-!
Verification of the character progression engine of `bobbyapp`
(`app/services/character_progression.py`, `app/utils/character_defaults.py`,
`app/api/character_progression.py`, `app/api/characters.py`).

Python dictionaries are embedded as association lists in insertion order
(Python 3.7+ dicts preserve insertion order, and the code relies on it);
dictionary update `d[k] = v` is embedded as `setKey`, which overwrites the
first binding of `k` in place and appends at the end when `k` is absent,
exactly as a Python dict does.  Python integers are `Int`/`Nat`.  The float
jitter of `calculate_xp_reward` is embedded as an exact rational parameter
(the injectable RNG value), with Python 3 `round` (round-half-to-even).
-/

namespace BobbyApp

/-- Association-list value lookup, mirroring Python `d.get(k)` /
`k in d` on an insertion-ordered dict. -/
def getKey {α : Type} (l : List (String × α)) (k : String) : Option α :=
  match l with
  | [] => none
  | (a, v) :: t => if k == a then some v else getKey t k

/-- Python dict assignment `d[k] = v`: overwrite the first binding of `k`
in place, append at the end when absent. -/
def setKey {α : Type} (l : List (String × α)) (k : String) (v : α) :
    List (String × α) :=
  match l with
  | [] => [(k, v)]
  | (a, w) :: t => if k == a then (a, v) :: t else (a, w) :: setKey t k v

/-- The keys of an association list, in order. -/
def keysOf {α : Type} (l : List (String × α)) : List String :=
  l.map (fun p => p.1)

/-- `listStart a b` is true when `a` is an initial segment of `b`
(helper for the Python substring test `key in s`). -/
def listStart : List Char → List Char → Bool
  | [], _ => true
  | _ :: _, [] => false
  | a :: as, b :: bs => a == b && listStart as bs

/-- `listInside a b` is true when `a` occurs contiguously inside `b`. -/
def listInside (needle : List Char) : List Char → Bool
  | [] => needle.isEmpty
  | b :: bs => listStart needle (b :: bs) || listInside needle bs

/-- Python `needle in hay` on strings: contiguous substring test. -/
def strInside (needle hay : String) : Bool :=
  listInside needle.data hay.data

/-- Python `s.lower()` on the ASCII identifiers used here
(character-level, so that it reduces in the kernel). -/
def lowerStr (s : String) : String :=
  String.mk (s.data.map Char.toLower)

/-- Python `s.lower().replace(" ", "_")`, the id normalization used by
`_get_ability_type` (character-level, so that it reduces in the kernel). -/
def normalize_id (s : String) : String :=
  String.mk ((s.data.map Char.toLower).map (fun c => if c == ' ' then '_' else c))

/-- Python `str.capitalize()`: first character upper-cased, the rest
lower-cased. -/
def capitalizeWord (w : List Char) : List Char :=
  match w with
  | [] => []
  | c :: cs => c.toUpper :: cs.map Char.toLower

/-- Python `str.split()` with no argument: split on runs of spaces,
dropping empty words. -/
def splitWords : List Char → List Char → List (List Char)
  | [], acc => if acc.isEmpty then [] else [acc.reverse]
  | c :: cs, acc =>
    if c == ' ' then
      if acc.isEmpty then splitWords cs [] else acc.reverse :: splitWords cs []
    else splitWords cs (c :: acc)

/-- Python `" ".join(ws)`. -/
def joinWords : List (List Char) → List Char
  | [] => []
  | [w] => w
  | w :: ws => w ++ ' ' :: joinWords ws

/-- `_format_ability_name`: underscores to spaces, split on whitespace
runs, capitalize each word, join with single spaces. -/
def format_ability_name (ability_id : String) : String :=
  String.mk (joinWords
    ((splitWords (ability_id.data.map (fun c => if c == '_' then ' ' else c)) []).map
      capitalizeWord))

/-- `_get_ability_description`. -/
def get_ability_description (ability_id character_class : String) : String :=
  "A powerful " ++ character_class ++ " ability that allows you to use "
    ++ format_ability_name ability_id ++ "."

/-- The `ability_types` dict of `_get_ability_type`, in source insertion
order (the substring phase iterates it in this order). -/
def ability_types : List (String × String) :=
  [ -- Warrior abilities
    ("improved_combat_techniques", "passive"),
    ("battle_cry", "active"),
    ("second_wind", "active"),
    ("extra_attack", "passive"),
    ("defensive_stance", "active"),
    ("intimidating_presence", "passive"),
    ("improved_critical", "passive"),
    ("cleave", "active"),
    ("champion_s_might", "special"),
    -- Wizard abilities
    ("arcane_recovery", "passive"),
    ("spell_school_specialization", "passive"),
    ("cantrip_mastery", "passive"),
    ("3rd_level_spells", "active"),
    ("arcane_tradition_feature", "passive"),
    ("4th_level_spells", "active"),
    ("5th_level_spells", "active"),
    ("arcane_mastery", "special"),
    -- Generic fallbacks
    ("improved", "passive"),
    ("mastery", "passive"),
    ("specialization", "passive"),
    ("recovery", "passive"),
    ("stance", "active"),
    ("strike", "active"),
    ("attack", "active"),
    ("cry", "active"),
    ("spells", "active"),
    ("shield", "active"),
    ("might", "special"),
    ("master", "special"),
    ("focus", "special"),
    ("rage", "special"),
    ("intervention", "special") ]

/-- `_get_ability_type`: exact match on the normalized id, then first
substring match in insertion order, else `"active"`.  The
`character_class` argument is accepted but unused, as in the source. -/
def get_ability_type (ability_id : String) (character_class : String) :
    Option String :=
  let _ := character_class
  let norm := normalize_id ability_id
  match getKey ability_types norm with
  | some t => some t
  | none =>
    match ability_types.find? (fun kv => strInside kv.1 norm) with
    | some kv => some kv.2
    | none => some "active"

/-- `get_level_xp_requirements` of `character_defaults.py`: level →
cumulative XP, in insertion order (already ascending, so Python's
`sorted(...items())` in `add_experience` yields exactly this list). -/
def LEVEL_XP_REQUIREMENTS : List (Nat × Int) :=
  [(1, 0), (2, 1000), (3, 3000), (4, 6000), (5, 10000), (6, 15000),
   (7, 21000), (8, 28000), (9, 36000), (10, 45000), (11, 55000),
   (12, 66000), (13, 78000), (14, 91000), (15, 105000), (16, 120000),
   (17, 136000), (18, 153000), (19, 171000), (20, 190000)]

/-- One entry of the class bonus table: the `{"abilities": [...],
"stats": {...}}` dict of `get_class_level_bonuses`. -/
structure LevelBonus where
  abilities : List String
  stats : List (String × Int)
deriving DecidableEq, Repr

/-- `get_class_level_bonuses` of `character_defaults.py`, complete. -/
def CLASS_LEVEL_BONUSES : List (String × List (Nat × LevelBonus)) :=
  [ ("warrior",
     [(2, ⟨["Improved Combat Techniques"], [("strength", 1)]⟩),
      (3, ⟨["Battle Cry"], [("constitution", 1)]⟩),
      (4, ⟨["Second Wind"], [("strength", 1)]⟩),
      (5, ⟨["Extra Attack"], [("dexterity", 1), ("strength", 1)]⟩),
      (6, ⟨["Defensive Stance"], [("constitution", 1)]⟩),
      (7, ⟨["Intimidating Presence"], [("strength", 1)]⟩),
      (8, ⟨["Improved Critical"], [("strength", 1), ("constitution", 1)]⟩),
      (9, ⟨["Cleave"], [("strength", 1)]⟩),
      (10, ⟨["Champion\x27s Might"], [("strength", 2), ("constitution", 1)]⟩)]),
    ("wizard",
     [(2, ⟨["Arcane Recovery"], [("intelligence", 1)]⟩),
      (3, ⟨["Spell School Specialization"], [("intelligence", 1)]⟩),
      (4, ⟨["Cantrip Mastery"], [("intelligence", 1)]⟩),
      (5, ⟨["3rd Level Spells"], [("intelligence", 1), ("wisdom", 1)]⟩),
      (6, ⟨["Arcane Tradition Feature"], [("intelligence", 1)]⟩),
      (7, ⟨["4th Level Spells"], [("intelligence", 1)]⟩),
      (8, ⟨["Ability Score Improvement"], [("intelligence", 2)]⟩),
      (9, ⟨["5th Level Spells"], [("intelligence", 1)]⟩),
      (10, ⟨["Arcane Mastery"], [("intelligence", 1), ("wisdom", 1)]⟩)]),
    ("rogue",
     [(2, ⟨["Cunning Action"], [("dexterity", 1)]⟩),
      (3, ⟨["Roguish Archetype"], [("dexterity", 1)]⟩),
      (4, ⟨["Uncanny Dodge"], [("dexterity", 1)]⟩),
      (5, ⟨["Evasion"], [("dexterity", 1)]⟩),
      (6, ⟨["Expertise"], [("dexterity", 1)]⟩),
      (7, ⟨["Advanced Sneak Attack"], [("dexterity", 1)]⟩),
      (8, ⟨["Ability Score Improvement"], [("dexterity", 1), ("charisma", 1)]⟩),
      (9, ⟨["Improved Reflexes"], [("dexterity", 1)]⟩),
      (10, ⟨["Shadow Master"], [("dexterity", 2)]⟩)]),
    ("cleric",
     [(2, ⟨["Channel Divinity"], [("wisdom", 1)]⟩),
      (3, ⟨["2nd Level Spells"], [("wisdom", 1)]⟩),
      (4, ⟨["Divine Domain Feature"], [("wisdom", 1)]⟩),
      (5, ⟨["3rd Level Spells"], [("wisdom", 1), ("charisma", 1)]⟩),
      (6, ⟨["Improved Healing"], [("wisdom", 1)]⟩),
      (7, ⟨["4th Level Spells"], [("wisdom", 1)]⟩),
      (8, ⟨["Divine Strike"], [("wisdom", 1), ("constitution", 1)]⟩),
      (9, ⟨["5th Level Spells"], [("wisdom", 1)]⟩),
      (10, ⟨["Divine Intervention"], [("wisdom", 2)]⟩)]),
    ("bard",
     [(2, ⟨["Jack of All Trades"], [("charisma", 1)]⟩),
      (3, ⟨["Bard College"], [("charisma", 1)]⟩),
      (4, ⟨["Expertise"], [("charisma", 1)]⟩),
      (5, ⟨["Font of Inspiration"], [("charisma", 1), ("dexterity", 1)]⟩),
      (6, ⟨["Countercharm"], [("charisma", 1)]⟩),
      (7, ⟨["Bard College Feature"], [("charisma", 1)]⟩),
      (8, ⟨["Ability Score Improvement"], [("charisma", 1), ("intelligence", 1)]⟩),
      (9, ⟨["Song of Rest Improvement"], [("charisma", 1)]⟩),
      (10, ⟨["Magical Secrets"], [("charisma", 2)]⟩)]),
    ("ranger",
     [(2, ⟨["Fighting Style"], [("dexterity", 1)]⟩),
      (3, ⟨["Ranger Conclave"], [("wisdom", 1)]⟩),
      (4, ⟨["Primeval Awareness"], [("dexterity", 1)]⟩),
      (5, ⟨["Extra Attack"], [("dexterity", 1), ("wisdom", 1)]⟩),
      (6, ⟨["Greater Favored Enemy"], [("dexterity", 1)]⟩),
      (7, ⟨["Ranger Conclave Feature"], [("wisdom", 1)]⟩),
      (8, ⟨["Land\x27s Stride"], [("dexterity", 1), ("wisdom", 1)]⟩),
      (9, ⟨["Hide in Plain Sight"], [("dexterity", 1)]⟩),
      (10, ⟨["Nature\x27s Warden"], [("wisdom", 2)]⟩)]),
    ("paladin",
     [(2, ⟨["Divine Smite"], [("strength", 1)]⟩),
      (3, ⟨["Sacred Oath"], [("charisma", 1)]⟩),
      (4, ⟨["Divine Health"], [("constitution", 1)]⟩),
      (5, ⟨["Extra Attack"], [("strength", 1), ("charisma", 1)]⟩),
      (6, ⟨["Aura of Protection"], [("charisma", 1)]⟩),
      (7, ⟨["Sacred Oath Feature"], [("strength", 1)]⟩),
      (8, ⟨["Aura of Courage"], [("charisma", 1), ("wisdom", 1)]⟩),
      (9, ⟨["Divine Sense Improvement"], [("charisma", 1)]⟩),
      (10, ⟨["Aura of Devotion"], [("charisma", 2)]⟩)]),
    ("druid",
     [(2, ⟨["Wild Shape"], [("wisdom", 1)]⟩),
      (3, ⟨["Druid Circle"], [("wisdom", 1)]⟩),
      (4, ⟨["Wild Shape Improvement"], [("wisdom", 1)]⟩),
      (5, ⟨["3rd Level Spells"], [("wisdom", 1), ("constitution", 1)]⟩),
      (6, ⟨["Druid Circle Feature"], [("wisdom", 1)]⟩),
      (7, ⟨["4th Level Spells"], [("wisdom", 1)]⟩),
      (8, ⟨["Wild Shape Improvement"], [("wisdom", 1), ("constitution", 1)]⟩),
      (9, ⟨["5th Level Spells"], [("wisdom", 1)]⟩),
      (10, ⟨["Nature\x27s Sanctuary"], [("wisdom", 2)]⟩)]),
    ("monk",
     [(2, ⟨["Ki"], [("dexterity", 1)]⟩),
      (3, ⟨["Monastic Tradition"], [("wisdom", 1)]⟩),
      (4, ⟨["Slow Fall"], [("dexterity", 1)]⟩),
      (5, ⟨["Stunning Strike"], [("dexterity", 1), ("wisdom", 1)]⟩),
      (6, ⟨["Ki-Empowered Strikes"], [("dexterity", 1)]⟩),
      (7, ⟨["Evasion"], [("dexterity", 1)]⟩),
      (8, ⟨["Stillness of Mind"], [("wisdom", 1), ("dexterity", 1)]⟩),
      (9, ⟨["Unarmored Movement Improvement"], [("dexterity", 1)]⟩),
      (10, ⟨["Purity of Body"], [("constitution", 1), ("wisdom", 1)]⟩)]),
    ("sorcerer",
     [(2, ⟨["Font of Magic"], [("charisma", 1)]⟩),
      (3, ⟨["Metamagic"], [("charisma", 1)]⟩),
      (4, ⟨["Sorcerous Origin Feature"], [("charisma", 1)]⟩),
      (5, ⟨["3rd Level Spells"], [("charisma", 1), ("constitution", 1)]⟩),
      (6, ⟨["Additional Metamagic"], [("charisma", 1)]⟩),
      (7, ⟨["4th Level Spells"], [("charisma", 1)]⟩),
      (8, ⟨["Ability Score Improvement"], [("charisma", 1), ("constitution", 1)]⟩),
      (9, ⟨["5th Level Spells"], [("charisma", 1)]⟩),
      (10, ⟨["Sorcerous Restoration"], [("charisma", 2)]⟩)]) ]

/-- `CLASS_LEVEL_BONUSES.get(cc, {}).get(level, {})` — the stat deltas of
the bonus entry, `[]` when class or level is absent. -/
def bonusDeltas (character_class : String) (level : Nat) : List (String × Int) :=
  match ((getKey CLASS_LEVEL_BONUSES character_class).getD []).lookup level with
  | some b => b.stats
  | none => []

/-- The ability ids of the bonus entry, `[]` when class or level is absent. -/
def bonusAbilities (character_class : String) (level : Nat) : List String :=
  match ((getKey CLASS_LEVEL_BONUSES character_class).getD []).lookup level with
  | some b => b.abilities
  | none => []

/-- One entry of `stat_changes` in a level-up record.  The source stores
`change` as the string `f"+{value}"`; it is embedded as the integer delta. -/
structure StatChange where
  stat : String
  old : Int
  new : Int
  delta : Int
deriving DecidableEq, Repr

/-- One entry of `ability_changes` in a level-up record. -/
structure AbilityChange where
  name : String
  description : String
  type : String
deriving DecidableEq, Repr

/-- The `level_up_data` dict returned by `_process_level_up`. -/
structure LevelUpData where
  level : Nat
  character_class : String
  stat_changes : List StatChange
  ability_changes : List AbilityChange
  new_stats : List (String × Int)
  new_abilities : List (String × List String)
  xp_required : Option Int
deriving DecidableEq, Repr

/-- The default stat block installed by `_process_level_up` when the
incoming stats dict is empty. -/
def defaultStatBlock : List (String × Int) :=
  [("strength", 10), ("dexterity", 10), ("constitution", 10),
   ("intelligence", 10), ("wisdom", 10), ("charisma", 10),
   ("health", 100), ("mana", 100)]

/-- The default abilities dict installed by `_process_level_up` when the
incoming abilities dict is empty. -/
def defaultAbilityBlock : List (String × List String) :=
  [("passive", []), ("active", []), ("special", [])]

/-- The `for stat, value in level_bonuses["stats"].items()` loop of
`_process_level_up`: a delta is applied only when the stat key is already
present (`if stat in new_stats`); the accumulator carries the working
stats and the `stat_changes` recorded so far. -/
def applyStatBonuses :
    List (String × Int) → List (String × Int) × List StatChange →
    List (String × Int) × List StatChange
  | [], acc => acc
  | (stat, value) :: rest, (stats, changes) =>
    match getKey stats stat with
    | some old =>
      applyStatBonuses rest
        (setKey stats stat (old + value),
         changes ++ [⟨stat, old, old + value, value⟩])
    | none => applyStatBonuses rest (stats, changes)

/-- The `for ability in level_bonuses["abilities"]` loop of
`_process_level_up`: classify, and append when the category list exists
and does not already contain the id. -/
def applyAbilityBonuses (character_class : String) :
    List String → List (String × List String) × List AbilityChange →
    List (String × List String) × List AbilityChange
  | [], acc => acc
  | ability :: rest, (abilities, changes) =>
    match get_ability_type ability character_class with
    | some t =>
      match getKey abilities t with
      | some lst =>
        if lst.contains ability then
          applyAbilityBonuses character_class rest (abilities, changes)
        else
          applyAbilityBonuses character_class rest
            (setKey abilities t (lst ++ [ability]),
             changes ++ [⟨format_ability_name ability,
                          get_ability_description ability character_class, t⟩])
      | none => applyAbilityBonuses character_class rest (abilities, changes)
    | none => applyAbilityBonuses character_class rest (abilities, changes)

/-- `_process_level_up`: bootstrap empty stats/abilities, look up the
class/level bonus (empty when absent), apply stat deltas and abilities,
and build the level-up record. -/
def process_level_up (new_level : Nat) (character_class : String)
    (stats : List (String × Int)) (abilities : List (String × List String)) :
    LevelUpData :=
  let stats := if stats.isEmpty then defaultStatBlock else stats
  let abilities := if abilities.isEmpty then defaultAbilityBlock else abilities
  let statRes := applyStatBonuses (bonusDeltas character_class new_level) (stats, [])
  let abilityRes :=
    applyAbilityBonuses character_class (bonusAbilities character_class new_level)
      (abilities, [])
  { level := new_level
    character_class := character_class
    stat_changes := statRes.2
    ability_changes := abilityRes.2
    new_stats := statRes.1
    new_abilities := abilityRes.1
    xp_required := LEVEL_XP_REQUIREMENTS.lookup new_level }

/-- The character row as read by `add_experience` (after the
`character.get(...)` defaulting: level 1, experience 0, class
`"warrior"`, empty dicts). -/
structure Character where
  level : Nat
  experience : Int
  character_class : String
  stats : List (String × Int)
  abilities : List (String × List String)
deriving DecidableEq, Repr

/-- The success payload returned by `add_experience`; `character` is the
updated row (`result.data[0]`).  An empty `level_ups` list stands for the
source's `None`. -/
structure ExperienceResult where
  character : Character
  xp_gained : Int
  xp_total : Int
  previous_level : Nat
  new_level : Nat
  level_ups : List LevelUpData
deriving DecidableEq, Repr

/-- The loop state of the `for level, xp_required in sorted(...)` loop of
`add_experience`. -/
structure LoopAcc where
  new_level : Nat
  stats : List (String × Int)
  abilities : List (String × List String)
  level_ups : List LevelUpData
deriving DecidableEq, Repr

/-- One iteration of the level loop of `add_experience`. -/
def levelStep (current_level : Nat) (new_xp_total : Int)
    (character_class : String) (acc : LoopAcc) (entry : Nat × Int) : LoopAcc :=
  if current_level < entry.1 ∧ entry.2 ≤ new_xp_total then
    let ld := process_level_up entry.1 character_class acc.stats acc.abilities
    { new_level := entry.1
      stats := ld.new_stats
      abilities := ld.new_abilities
      level_ups := acc.level_ups ++ [ld] }
  else acc

/-- The level loop of `add_experience` over a threshold table. -/
def levelLoop (current_level : Nat) (new_xp_total : Int)
    (character_class : String) (table : List (Nat × Int)) (acc : LoopAcc) :
    LoopAcc :=
  table.foldl (levelStep current_level new_xp_total character_class) acc

/-- The loop state `add_experience` starts from: `new_level` is the
current level, stats/abilities are the row's dicts, no level-ups yet. -/
def initAcc (ch : Character) : LoopAcc :=
  { new_level := ch.level, stats := ch.stats, abilities := ch.abilities,
    level_ups := [] }

/-- The whole level loop of `add_experience` for a character row and an
XP delta. -/
def addExpLoop (ch : Character) (xp_amount : Int) : LoopAcc :=
  levelLoop ch.level (ch.experience + xp_amount)
    (lowerStr ch.character_class) LEVEL_XP_REQUIREMENTS (initAcc ch)

/-- `add_experience` (service layer), with the database read/write and
notification side effects abstracted away: the input is the character row
already loaded, the output is the returned payload whose `character` is
the updated row.

The source's `_process_level_up` snapshots stats and abilities with
shallow `dict.copy()`.  For stats the values are immutable integers, so
each record's `new_stats` is a genuine per-level snapshot; but each
record's `new_abilities` shares its category *lists* with the working
abilities dict, and no later step ever rebinds or adds a key, so by the
time the call returns every record's `new_abilities` shows the final
ability lists.  The embedding makes that aliasing explicit by overwriting
each record's `new_abilities` with the final abilities map. -/
def add_experience (character : Character) (xp_amount : Int) :
    ExperienceResult :=
  let current_level := character.level
  let new_xp_total := character.experience + xp_amount
  let res := addExpLoop character xp_amount
  let level_ups := res.level_ups.map (fun r => { r with new_abilities := res.abilities })
  let updated :=
    if current_level < res.new_level then
      { character with
          experience := new_xp_total
          level := res.new_level
          stats := res.stats
          abilities := res.abilities }
    else { character with experience := new_xp_total }
  { character := updated
    xp_gained := xp_amount
    xp_total := new_xp_total
    previous_level := current_level
    new_level := res.new_level
    level_ups := level_ups }

/-- `add_character_experience` (API route), reduced to the validation it
performs before calling the service: `xp_amount = xp_data.get("xp_amount",
0)`, rejected with HTTP 400 when `xp_amount <= 0`.  The error string is
the route's `detail`; the spec calls this failure `InvalidAmount`. -/
def add_character_experience (character : Character) (xp_data : Option Int) :
    Except String ExperienceResult :=
  let xp_amount := xp_data.getD 0
  if xp_amount ≤ 0 then .error "XP amount must be greater than 0"
  else .ok (add_experience character xp_amount)

/-- `get_xp_reward_values` of `character_defaults.py`. -/
def XP_REWARD_VALUES : List (String × List (String × Nat)) :=
  [ ("combat", [("easy", 100), ("medium", 200), ("hard", 400), ("boss", 1000)]),
    ("quest", [("minor", 300), ("standard", 600), ("major", 1200), ("epic", 2500)]),
    ("puzzle", [("easy", 150), ("medium", 300), ("hard", 600)]),
    ("exploration", [("location", 100), ("secret", 200), ("landmark", 300)]),
    ("roleplay", [("minor", 50), ("significant", 150), ("major", 300)]),
    ("crafting", [("basic", 50), ("advanced", 150), ("masterwork", 300)]) ]

/-- The fallback `action_rewards` dict used by `calculate_xp_reward` when
the action type is unrecognized. -/
def DEFAULT_ACTION_REWARDS : List (String × Nat) :=
  [("easy", 50), ("medium", 100), ("hard", 200), ("minor", 50),
   ("standard", 100), ("major", 200), ("epic", 500), ("boss", 500),
   ("location", 50), ("secret", 100), ("landmark", 150),
   ("significant", 100), ("basic", 50), ("advanced", 100),
   ("masterwork", 200)]

/-- Python 3 `round` of the exact fraction `a / b` (with `b > 0`) to an
integer: round half to even. -/
def roundDiv (a b : ℤ) : ℤ :=
  let f := Int.fdiv a b
  let r := a - f * b
  if 2 * r < b then f
  else if b < 2 * r then f + 1
  else if f % 2 = 0 then f else f + 1

/-- `calculate_xp_reward`, with the `random.uniform(0.9, 1.1)` draw made
an explicit `variation` parameter (the injectable jitter) and the float
arithmetic embedded as exact rational arithmetic: the rounded quantity
`base_xp * variation / 5` is the exact fraction
`(base_xp * variation.num) / (5 * variation.den)` (see
`calculate_xp_reward_fraction_eq`).  `int(base_xp * 0.5)` is truncation
of a non-negative value, i.e. `Nat` halving. -/
def calculate_xp_reward (action_type : String) (difficulty : String)
    (success : Bool) (variation : ℚ) : ℤ :=
  let action_rewards :=
    match getKey XP_REWARD_VALUES (lowerStr action_type) with
    | some l => l
    | none => DEFAULT_ACTION_REWARDS
  let base0 : Nat :=
    (getKey action_rewards (lowerStr difficulty)).getD 100
  let base_xp : Nat := if success then base0 else base0 / 2
  let final_xp : ℤ := roundDiv ((base_xp : ℤ) * variation.num) (5 * (variation.den : ℤ)) * 5
  max 5 final_xp

/-- The `base_stats` dict of `get_default_stats`. -/
def BASE_STATS : List (String × Int) :=
  [("strength", 10), ("dexterity", 10), ("constitution", 10),
   ("intelligence", 10), ("wisdom", 10), ("charisma", 10)]

/-- The `class_modifiers` dict of `get_default_stats`. -/
def CLASS_MODIFIERS : List (String × List (String × Int)) :=
  [ ("warrior", [("strength", 5), ("constitution", 3), ("dexterity", 2)]),
    ("wizard", [("intelligence", 5), ("wisdom", 3), ("constitution", -1)]),
    ("rogue", [("dexterity", 5), ("charisma", 2), ("intelligence", 2)]),
    ("cleric", [("wisdom", 5), ("charisma", 2), ("constitution", 2)]),
    ("bard", [("charisma", 5), ("dexterity", 2), ("intelligence", 2)]),
    ("ranger", [("dexterity", 4), ("wisdom", 3), ("strength", 2)]),
    ("paladin", [("strength", 3), ("charisma", 3), ("constitution", 3)]),
    ("druid", [("wisdom", 4), ("constitution", 3), ("intelligence", 2)]),
    ("monk", [("dexterity", 4), ("wisdom", 3), ("strength", 2)]),
    ("sorcerer", [("charisma", 5), ("constitution", 2), ("intelligence", 2)]) ]

/-- `get_default_stats` of `character_defaults.py`: base stats plus the
class modifiers (`base_stats[stat] += modifier`; every modifier key is
present in the base dict). -/
def get_default_stats (character_class : String) : List (String × Int) :=
  match getKey CLASS_MODIFIERS (lowerStr character_class) with
  | some mods =>
    mods.foldl (fun acc p => setKey acc p.1 ((getKey acc p.1).getD 0 + p.2))
      BASE_STATS
  | none => BASE_STATS

/-- The `class_abilities` dict of `get_default_abilities`. -/
def CLASS_ABILITIES : List (String × List (String × List String)) :=
  [ ("warrior",
     [("passive", ["Toughness", "Intimidate"]),
      ("active", ["Power Strike", "Shield Block", "Charge"]),
      ("special", ["Berserker Rage"])]),
    ("wizard",
     [("passive", ["Arcane Knowledge", "Spell Focus"]),
      ("active", ["Fireball", "Magic Missile", "Arcane Shield"]),
      ("special", ["Teleport", "Time Manipulation"])]),
    ("rogue",
     [("passive", ["Stealth", "Trap Detection"]),
      ("active", ["Backstab", "Pickpocket", "Evasion"]),
      ("special", ["Shadow Strike"])]),
    ("cleric",
     [("passive", ["Divine Favor", "Healing Aura"]),
      ("active", ["Heal", "Smite", "Bless"]),
      ("special", ["Divine Intervention"])]),
    ("bard",
     [("passive", ["Charismatic Aura", "Lore Knowledge"]),
      ("active", ["Inspire", "Soothing Song", "Distraction"]),
      ("special", ["Epic Performance"])]),
    ("ranger",
     [("passive", ["Track", "Animal Empathy"]),
      ("active", ["Precise Shot", "Animal Companion", "Nature\x27s Eye"]),
      ("special", ["One With Nature"])]),
    ("paladin",
     [("passive", ["Divine Sense", "Aura of Protection"]),
      ("active", ["Lay on Hands", "Divine Smite", "Sacred Oath"]),
      ("special", ["Holy Avenger"])]),
    ("druid",
     [("passive", ["Nature Bond", "Wild Empathy"]),
      ("active", ["Wild Shape", "Entangle", "Speak with Animals"]),
      ("special", ["Nature\x27s Wrath"])]),
    ("monk",
     [("passive", ["Meditation", "Unarmored Defense"]),
      ("active", ["Flurry of Blows", "Stunning Strike", "Deflect Missiles"]),
      ("special", ["Ki Focus"])]),
    ("sorcerer",
     [("passive", ["Magical Heritage", "Elemental Affinity"]),
      ("active", ["Wild Magic", "Metamagic", "Arcane Blast"]),
      ("special", ["Sorcerous Origin"])]) ]

/-- `get_default_abilities`: the basic abilities dict, with the class
lists appended for the keys the class dict provides. -/
def get_default_abilities (character_class : String) :
    List (String × List String) :=
  let basic : List (String × List String) :=
    [("passive", ["Rest", "Observe"]), ("active", ["Attack"]), ("special", [])]
  match getKey CLASS_ABILITIES (lowerStr character_class) with
  | some cls =>
    basic.map (fun kv =>
      match getKey cls kv.1 with
      | some extra => (kv.1, kv.2 ++ extra)
      | none => kv)
  | none => basic

/-- The character row built by `create_character` (`app/api/characters.py`),
as the progression engine later reads it.  `new_character` stores the
class defaults from `get_default_stats` under the key `"attributes"` and
sets no `"stats"` key at all, so `character.get("stats", {})` in
`add_experience` yields the empty dict; `"abilities"` is set to
`get_default_abilities`, `"level"` to 1 and `"experience"` to 0. -/
def createdCharacter (character_class : String) : Character :=
  { level := 1
    experience := 0
    character_class := character_class
    stats := []
    abilities := get_default_abilities character_class }

/-- The `"attributes"` value `create_character` stores (when the request
supplies no explicit attributes): the class default stats. -/
def createdAttributes (character_class : String) : List (String × Int) :=
  get_default_stats character_class

/-- A level-1 warrior with empty stats and abilities dicts, as
`add_experience` reads a bare row. -/
def warriorLvl1 : Character :=
  { level := 1, experience := 0, character_class := "warrior",
    stats := [], abilities := [] }

/-- A level-1 warrior whose stats dict only contains `dexterity` (a
partially populated stats map). -/
def warriorOnlyDex : Character :=
  { level := 1, experience := 0, character_class := "warrior",
    stats := [("dexterity", 10)], abilities := [] }

/- ------------------------------------------------------------------ -/
/- Association-list lemmas.                                            -/
/- ------------------------------------------------------------------ -/

theorem keysOf_cons {α : Type} (a : String) (w : α) (t : List (String × α)) :
    keysOf ((a, w) :: t) = a :: keysOf t := rfl

theorem getKey_setKey_self {α : Type} (l : List (String × α)) (k : String)
    (v : α) : getKey (setKey l k v) k = some v := by
  induction l with
  | nil => simp [setKey, getKey]
  | cons p t ih =>
    obtain ⟨a, w⟩ := p
    cases hka : k == a with
    | true => simp [setKey, getKey, hka]
    | false => simp [setKey, getKey, hka, ih]

theorem getKey_setKey_ne {α : Type} (l : List (String × α)) (k k' : String)
    (v : α) (hne : k' ≠ k) : getKey (setKey l k v) k' = getKey l k' := by
  have hk'k : (k' == k) = false := by simp [hne]
  induction l with
  | nil => simp [setKey, getKey, hk'k]
  | cons p t ih =>
    obtain ⟨a, w⟩ := p
    cases hka : k == a with
    | true =>
      have ha : k = a := by simpa using hka
      subst ha
      simp [setKey, getKey, hka, hk'k]
    | false =>
      cases hk'a : k' == a with
      | true => simp [setKey, getKey, hka, hk'a]
      | false => simp [setKey, getKey, hka, hk'a, ih]

theorem mem_keysOf_iff {α : Type} (l : List (String × α)) (k : String) :
    k ∈ keysOf l ↔ ∃ v, getKey l k = some v := by
  induction l with
  | nil => simp [keysOf, getKey]
  | cons p t ih =>
    obtain ⟨a, w⟩ := p
    rw [keysOf_cons, List.mem_cons]
    cases hka : k == a with
    | true =>
      have ha : k = a := by simpa using hka
      simp [getKey, hka, ha]
    | false =>
      have ha : k ≠ a := by simpa using hka
      simp [getKey, hka, ha, ih]

theorem keysOf_setKey {α : Type} (l : List (String × α)) (k : String) (v w : α)
    (h : getKey l k = some w) : keysOf (setKey l k v) = keysOf l := by
  induction l with
  | nil => simp [getKey] at h
  | cons p t ih =>
    obtain ⟨a, u⟩ := p
    cases hka : k == a with
    | true => simp [setKey, keysOf, hka]
    | false =>
      have h' : getKey t k = some w := by simpa [getKey, hka] using h
      have hs : setKey ((a, u) :: t) k v = (a, u) :: setKey t k v := by
        simp [setKey, hka]
      rw [hs, keysOf_cons, keysOf_cons, ih h']

theorem getKey_mem {α : Type} (l : List (String × α)) (k : String) (v : α)
    (h : getKey l k = some v) : (k, v) ∈ l := by
  induction l with
  | nil => simp [getKey] at h
  | cons p t ih =>
    obtain ⟨a, w⟩ := p
    cases hka : k == a with
    | true =>
      have ha : k = a := by simpa using hka
      have hv : w = v := by simpa [getKey, hka] using h
      rw [ha, ← hv]
      exact List.mem_cons_self _ _
    | false =>
      have h' : getKey t k = some v := by simpa [getKey, hka] using h
      exact List.mem_cons_of_mem _ (ih h')

/- ------------------------------------------------------------------ -/
/- Level-loop lemmas.                                                  -/
/- ------------------------------------------------------------------ -/

theorem levelLoop_nil (c : Nat) (x : Int) (cc : String) (acc : LoopAcc) :
    levelLoop c x cc [] acc = acc := rfl

theorem levelLoop_cons (c : Nat) (x : Int) (cc : String) (e : Nat × Int)
    (t : List (Nat × Int)) (acc : LoopAcc) :
    levelLoop c x cc (e :: t) acc = levelLoop c x cc t (levelStep c x cc acc e) :=
  rfl

theorem levelStep_fires (c : Nat) (x : Int) (cc : String) (acc : LoopAcc)
    (e : Nat × Int) (h : c < e.1 ∧ e.2 ≤ x) :
    levelStep c x cc acc e =
      { new_level := e.1
        stats := (process_level_up e.1 cc acc.stats acc.abilities).new_stats
        abilities := (process_level_up e.1 cc acc.stats acc.abilities).new_abilities
        level_ups := acc.level_ups ++ [process_level_up e.1 cc acc.stats acc.abilities] } := by
  simp [levelStep, h]

theorem levelStep_skips (c : Nat) (x : Int) (cc : String) (acc : LoopAcc)
    (e : Nat × Int) (h : ¬(c < e.1 ∧ e.2 ≤ x)) :
    levelStep c x cc acc e = acc := by
  simp [levelStep, h]

theorem loop_ups_extend (c : Nat) (x : Int) (cc : String)
    (t : List (Nat × Int)) (acc : LoopAcc) :
    ∃ s, (levelLoop c x cc t acc).level_ups = acc.level_ups ++ s := by
  induction t generalizing acc with
  | nil => exact ⟨[], by simp [levelLoop_nil]⟩
  | cons e t ih =>
    rw [levelLoop_cons]
    rcases ih (levelStep c x cc acc e) with ⟨s, hs⟩
    by_cases h : c < e.1 ∧ e.2 ≤ x
    · refine ⟨process_level_up e.1 cc acc.stats acc.abilities :: s, ?_⟩
      rw [hs, levelStep_fires c x cc acc e h]
      simp
    · exact ⟨s, by rw [hs, levelStep_skips c x cc acc e h]⟩

theorem loop_eq_of_ups_eq (c : Nat) (x : Int) (cc : String)
    (t : List (Nat × Int)) (acc : LoopAcc)
    (h : (levelLoop c x cc t acc).level_ups = acc.level_ups) :
    levelLoop c x cc t acc = acc := by
  induction t generalizing acc with
  | nil => rw [levelLoop_nil]
  | cons e t ih =>
    rw [levelLoop_cons] at h ⊢
    by_cases hc : c < e.1 ∧ e.2 ≤ x
    · exfalso
      rcases loop_ups_extend c x cc t (levelStep c x cc acc e) with ⟨s, hs⟩
      rw [hs, levelStep_fires c x cc acc e hc] at h
      have hlen := congrArg List.length h
      simp at hlen
    · rw [levelStep_skips c x cc acc e hc] at h ⊢
      exact ih acc h

theorem loop_new_level_ge (c : Nat) (x : Int) (cc : String)
    (t : List (Nat × Int)) (acc : LoopAcc) (h : c ≤ acc.new_level) :
    c ≤ (levelLoop c x cc t acc).new_level := by
  induction t generalizing acc with
  | nil => exact h
  | cons e t ih =>
    rw [levelLoop_cons]
    apply ih
    by_cases hc : c < e.1 ∧ e.2 ≤ x
    · rw [levelStep_fires c x cc acc e hc]; exact le_of_lt hc.1
    · rw [levelStep_skips c x cc acc e hc]; exact h

theorem loop_new_level_le (c : Nat) (x : Int) (cc : String)
    (t : List (Nat × Int)) (acc : LoopAcc) (n : Nat)
    (ht : ∀ e ∈ t, e.1 ≤ n) (h : acc.new_level ≤ n) :
    (levelLoop c x cc t acc).new_level ≤ n := by
  induction t generalizing acc with
  | nil => exact h
  | cons e t ih =>
    rw [levelLoop_cons]
    apply ih
    · intro e' he'; exact ht e' (List.mem_cons_of_mem _ he')
    · by_cases hc : c < e.1 ∧ e.2 ≤ x
      · rw [levelStep_fires c x cc acc e hc]
        exact ht e (List.mem_cons_self _ _)
      · rw [levelStep_skips c x cc acc e hc]; exact h

theorem loop_ups_ne_gt (c : Nat) (x : Int) (cc : String)
    (t : List (Nat × Int)) (acc : LoopAcc)
    (h : acc.level_ups ≠ [] → c < acc.new_level) :
    (levelLoop c x cc t acc).level_ups ≠ [] →
      c < (levelLoop c x cc t acc).new_level := by
  induction t generalizing acc with
  | nil => exact h
  | cons e t ih =>
    rw [levelLoop_cons]
    apply ih
    by_cases hc : c < e.1 ∧ e.2 ≤ x
    · rw [levelStep_fires c x cc acc e hc]; exact fun _ => hc.1
    · rw [levelStep_skips c x cc acc e hc]; exact h

/- ------------------------------------------------------------------ -/
/- Projection equations for the embedded functions.                    -/
/- ------------------------------------------------------------------ -/

theorem process_level_up_level (l : Nat) (cc : String)
    (st : List (String × Int)) (ab : List (String × List String)) :
    (process_level_up l cc st ab).level = l := rfl

theorem process_level_up_new_stats (l : Nat) (cc : String)
    (st : List (String × Int)) (ab : List (String × List String)) :
    (process_level_up l cc st ab).new_stats =
      (applyStatBonuses (bonusDeltas cc l)
        ((if st.isEmpty then defaultStatBlock else st), [])).1 := rfl

theorem process_level_up_stat_changes (l : Nat) (cc : String)
    (st : List (String × Int)) (ab : List (String × List String)) :
    (process_level_up l cc st ab).stat_changes =
      (applyStatBonuses (bonusDeltas cc l)
        ((if st.isEmpty then defaultStatBlock else st), [])).2 := rfl

theorem process_level_up_ability_changes (l : Nat) (cc : String)
    (st : List (String × Int)) (ab : List (String × List String)) :
    (process_level_up l cc st ab).ability_changes =
      (applyAbilityBonuses cc (bonusAbilities cc l)
        ((if ab.isEmpty then defaultAbilityBlock else ab), [])).2 := rfl

theorem add_experience_xp_total (ch : Character) (xp : Int) :
    (add_experience ch xp).xp_total = ch.experience + xp := rfl

theorem add_experience_xp_gained (ch : Character) (xp : Int) :
    (add_experience ch xp).xp_gained = xp := rfl

theorem add_experience_new_level (ch : Character) (xp : Int) :
    (add_experience ch xp).new_level = (addExpLoop ch xp).new_level := rfl

theorem add_experience_level_ups (ch : Character) (xp : Int) :
    (add_experience ch xp).level_ups =
      (addExpLoop ch xp).level_ups.map
        (fun r => { r with new_abilities := (addExpLoop ch xp).abilities }) := rfl

theorem add_experience_character (ch : Character) (xp : Int) :
    (add_experience ch xp).character =
      if ch.level < (addExpLoop ch xp).new_level then
        { ch with
            experience := ch.experience + xp
            level := (addExpLoop ch xp).new_level
            stats := (addExpLoop ch xp).stats
            abilities := (addExpLoop ch xp).abilities }
      else { ch with experience := ch.experience + xp } := rfl

theorem loop_head (c : Nat) (x : Int) (cc : String) (t : List (Nat × Int))
    (acc : LoopAcc) (r : LevelUpData) (rest : List LevelUpData)
    (h0 : acc.level_ups = [])
    (h : (levelLoop c x cc t acc).level_ups = r :: rest) :
    ∃ e ∈ t, (c < e.1 ∧ e.2 ≤ x) ∧
      r = process_level_up e.1 cc acc.stats acc.abilities := by
  induction t generalizing acc with
  | nil =>
    rw [levelLoop_nil, h0] at h
    cases h
  | cons e t ih =>
    rw [levelLoop_cons] at h
    by_cases hc : c < e.1 ∧ e.2 ≤ x
    · rcases loop_ups_extend c x cc t (levelStep c x cc acc e) with ⟨s, hs⟩
      rw [hs, levelStep_fires c x cc acc e hc, h0] at h
      simp only [List.nil_append, List.cons_append] at h
      refine ⟨e, List.mem_cons_self _ _, hc, ?_⟩
      exact (List.cons.injEq _ _ _ _ ▸ h).1.symm
    · rw [levelStep_skips c x cc acc e hc] at h
      rcases ih acc h0 h with ⟨e', he', hc', hr⟩
      exact ⟨e', List.mem_cons_of_mem _ he', hc', hr⟩

/- ------------------------------------------------------------------ -/
/- Stat-bonus application lemmas.                                      -/
/- ------------------------------------------------------------------ -/

theorem applyStatBonuses_changes_extend (deltas : List (String × Int)) :
    ∀ (st : List (String × Int)) (ch : List StatChange),
      ∃ e, (applyStatBonuses deltas (st, ch)).2 = ch ++ e := by
  induction deltas with
  | nil => exact fun st ch => ⟨[], by simp [applyStatBonuses]⟩
  | cons p t ih =>
    intro st ch
    obtain ⟨k, d⟩ := p
    cases hg : getKey st k with
    | some old =>
      have hstep : applyStatBonuses ((k, d) :: t) (st, ch) =
          applyStatBonuses t
            (setKey st k (old + d), ch ++ [⟨k, old, old + d, d⟩]) := by
        simp [applyStatBonuses, hg]
      rcases ih (setKey st k (old + d)) (ch ++ [⟨k, old, old + d, d⟩]) with ⟨e, he⟩
      exact ⟨⟨k, old, old + d, d⟩ :: e, by rw [hstep, he]; simp⟩
    | none =>
      have hstep : applyStatBonuses ((k, d) :: t) (st, ch) =
          applyStatBonuses t (st, ch) := by simp [applyStatBonuses, hg]
      rcases ih st ch with ⟨e, he⟩
      exact ⟨e, by rw [hstep, he]⟩

theorem applyStatBonuses_unmoved (deltas : List (String × Int)) :
    ∀ (st : List (String × Int)) (ch : List StatChange) (s : String),
      (∀ p ∈ deltas, p.1 ≠ s) →
      getKey (applyStatBonuses deltas (st, ch)).1 s = getKey st s ∧
      ∀ c ∈ (applyStatBonuses deltas (st, ch)).2, c ∈ ch ∨ c.stat ≠ s := by
  induction deltas with
  | nil => exact fun st ch s _ => ⟨rfl, fun c hc => .inl hc⟩
  | cons p t ih =>
    intro st ch s h
    obtain ⟨k, d⟩ := p
    have hk : k ≠ s := h (k, d) (List.mem_cons_self _ _)
    have ht : ∀ p ∈ t, p.1 ≠ s := fun q hq => h q (List.mem_cons_of_mem _ hq)
    cases hg : getKey st k with
    | some old =>
      have hstep : applyStatBonuses ((k, d) :: t) (st, ch) =
          applyStatBonuses t
            (setKey st k (old + d), ch ++ [⟨k, old, old + d, d⟩]) := by
        simp [applyStatBonuses, hg]
      rw [hstep]
      rcases ih (setKey st k (old + d)) (ch ++ [⟨k, old, old + d, d⟩]) s ht with
        ⟨h1, h2⟩
      refine ⟨?_, ?_⟩
      · rw [h1, getKey_setKey_ne st k s _ (Ne.symm hk)]
      · intro c hc
        rcases h2 c hc with hc' | hne
        · rcases List.mem_append.mp hc' with h3 | h3
          · exact .inl h3
          · have hck : c = ⟨k, old, old + d, d⟩ := by simpa using h3
            exact .inr (by rw [hck]; exact hk)
        · exact .inr hne
    | none =>
      have hstep : applyStatBonuses ((k, d) :: t) (st, ch) =
          applyStatBonuses t (st, ch) := by simp [applyStatBonuses, hg]
      rw [hstep]
      exact ih st ch s ht

theorem applyStatBonuses_applied (deltas : List (String × Int)) :
    ∀ (s : String) (d : Int), (s, d) ∈ deltas →
      (deltas.map (fun p => p.1)).Nodup →
      ∀ (st : List (String × Int)) (ch : List StatChange),
        (∀ old, getKey st s = some old →
           getKey (applyStatBonuses deltas (st, ch)).1 s = some (old + d) ∧
           (⟨s, old, old + d, d⟩ : StatChange) ∈ (applyStatBonuses deltas (st, ch)).2) ∧
        (getKey st s = none →
           getKey (applyStatBonuses deltas (st, ch)).1 s = none ∧
           ∀ c ∈ (applyStatBonuses deltas (st, ch)).2, c ∈ ch ∨ c.stat ≠ s) := by
  induction deltas with
  | nil => intro s d hmem; cases hmem
  | cons p t ih =>
    intro s d hmem hnodup st ch
    obtain ⟨k, d'⟩ := p
    have hnd : (t.map (fun p => p.1)).Nodup :=
      (List.nodup_cons.mp (by simpa using hnodup)).2
    have hknotin : k ∉ t.map (fun p => p.1) :=
      (List.nodup_cons.mp (by simpa using hnodup)).1
    rcases List.mem_cons.mp hmem with heq | hmem'
    · obtain ⟨hs, hd⟩ := Prod.mk.inj heq
      subst hs; subst hd
      have hnotin : ∀ q ∈ t, q.1 ≠ s := by
        intro q hq hqs
        exact hknotin (hqs ▸ List.mem_map_of_mem _ hq)
      constructor
      · intro old hold
        have hstep : applyStatBonuses ((s, d) :: t) (st, ch) =
            applyStatBonuses t
              (setKey st s (old + d), ch ++ [⟨s, old, old + d, d⟩]) := by
          simp [applyStatBonuses, hold]
        rw [hstep]
        rcases applyStatBonuses_unmoved t (setKey st s (old + d))
          (ch ++ [⟨s, old, old + d, d⟩]) s hnotin with ⟨h1, _⟩
        refine ⟨by rw [h1, getKey_setKey_self], ?_⟩
        rcases applyStatBonuses_changes_extend t (setKey st s (old + d))
          (ch ++ [⟨s, old, old + d, d⟩]) with ⟨e, he⟩
        rw [he]
        exact List.mem_append_left _ (List.mem_append_right _ (List.mem_singleton.mpr rfl))
      · intro hnone
        have hstep : applyStatBonuses ((s, d) :: t) (st, ch) =
            applyStatBonuses t (st, ch) := by simp [applyStatBonuses, hnone]
        rw [hstep]
        rcases applyStatBonuses_unmoved t st ch s hnotin with ⟨h1, h2⟩
        exact ⟨by rw [h1, hnone], h2⟩
    · have hks : k ≠ s := by
        intro he
        exact hknotin (he ▸ List.mem_map_of_mem _ hmem')
      cases hg : getKey st k with
      | some old =>
        have hstep : applyStatBonuses ((k, d') :: t) (st, ch) =
            applyStatBonuses t
              (setKey st k (old + d'), ch ++ [⟨k, old, old + d', d'⟩]) := by
          simp [applyStatBonuses, hg]
        rw [hstep]
        constructor
        · intro old' hold'
          have hset : getKey (setKey st k (old + d')) s = some old' := by
            rw [getKey_setKey_ne st k s _ (Ne.symm hks)]; exact hold'
          exact (ih s d hmem' hnd (setKey st k (old + d'))
            (ch ++ [⟨k, old, old + d', d'⟩])).1 old' hset
        · intro hnone
          have hset : getKey (setKey st k (old + d')) s = none := by
            rw [getKey_setKey_ne st k s _ (Ne.symm hks)]; exact hnone
          rcases (ih s d hmem' hnd (setKey st k (old + d'))
            (ch ++ [⟨k, old, old + d', d'⟩])).2 hset with ⟨h1, h2⟩
          refine ⟨h1, fun c hc => ?_⟩
          rcases h2 c hc with hc' | hne
          · rcases List.mem_append.mp hc' with h3 | h3
            · exact .inl h3
            · have hck : c = ⟨k, old, old + d', d'⟩ := by simpa using h3
              exact .inr (by rw [hck]; exact hks)
          · exact .inr hne
      | none =>
        have hstep : applyStatBonuses ((k, d') :: t) (st, ch) =
            applyStatBonuses t (st, ch) := by simp [applyStatBonuses, hg]
        rw [hstep]
        exact ih s d hmem' hnd st ch

/- ------------------------------------------------------------------ -/
/- Ability-map key preservation.                                       -/
/- ------------------------------------------------------------------ -/

theorem applyAbilityBonuses_keys (cc : String) (ab : List String) :
    ∀ (am : List (String × List String)) (ch : List AbilityChange),
      keysOf (applyAbilityBonuses cc ab (am, ch)).1 = keysOf am := by
  induction ab with
  | nil => intro am ch; rfl
  | cons a t ih =>
    intro am ch
    cases hty : get_ability_type a cc with
    | none => simp only [applyAbilityBonuses, hty]; exact ih am ch
    | some ty =>
      cases hg : getKey am ty with
      | none => simp only [applyAbilityBonuses, hty, hg]; exact ih am ch
      | some lst =>
        by_cases hcont : (lst.contains a) = true
        · have hstep : applyAbilityBonuses cc (a :: t) (am, ch) =
              applyAbilityBonuses cc t (am, ch) := by
            simp only [applyAbilityBonuses, hty, hg]
            rw [if_pos hcont]
          rw [hstep]
          exact ih am ch
        · have hstep : applyAbilityBonuses cc (a :: t) (am, ch) =
              applyAbilityBonuses cc t
                (setKey am ty (lst ++ [a]),
                 ch ++ [⟨format_ability_name a,
                         get_ability_description a cc, ty⟩]) := by
            simp only [applyAbilityBonuses, hty, hg]
            rw [if_neg hcont]
          rw [hstep, ih, keysOf_setKey am ty _ lst hg]

theorem process_level_up_abilities_keys (l : Nat) (cc : String)
    (st : List (String × Int)) (am : List (String × List String)) :
    keysOf (process_level_up l cc st am).new_abilities =
      keysOf (if am.isEmpty then defaultAbilityBlock else am) :=
  applyAbilityBonuses_keys cc (bonusAbilities cc l)
    (if am.isEmpty then defaultAbilityBlock else am) []

theorem loop_abilities_keys (c : Nat) (x : Int) (cc : String)
    (t : List (Nat × Int)) :
    ∀ acc : LoopAcc,
      (acc.abilities = [] ∨
        keysOf acc.abilities = ["passive", "active", "special"]) →
      (acc.level_ups ≠ [] →
        keysOf acc.abilities = ["passive", "active", "special"]) →
      ((levelLoop c x cc t acc).abilities = [] ∨
        keysOf (levelLoop c x cc t acc).abilities =
          ["passive", "active", "special"]) ∧
      ((levelLoop c x cc t acc).level_ups ≠ [] →
        keysOf (levelLoop c x cc t acc).abilities =
          ["passive", "active", "special"]) := by
  induction t with
  | nil => intro acc h1 h2; exact ⟨h1, h2⟩
  | cons e t ih =>
    intro acc h1 h2
    rw [levelLoop_cons]
    by_cases hc : c < e.1 ∧ e.2 ≤ x
    · rw [levelStep_fires c x cc acc e hc]
      have hkeys : keysOf (process_level_up e.1 cc acc.stats acc.abilities).new_abilities =
          ["passive", "active", "special"] := by
        rw [process_level_up_abilities_keys]
        rcases h1 with hnil | hk
        · rw [hnil]; rfl
        · have hne : acc.abilities.isEmpty = false := by
            cases hab : acc.abilities with
            | nil => rw [hab] at hk; simp [keysOf] at hk
            | cons q qs => rfl
          rw [hne]
          simpa using hk
      exact ih _ (.inr hkeys) (fun _ => hkeys)
    · rw [levelStep_skips c x cc acc e hc]
      exact ih acc h1 h2

/- ------------------------------------------------------------------ -/
/- Key preservation for `get_default_stats`.                           -/
/- ------------------------------------------------------------------ -/

theorem foldl_mods_keys (mods : List (String × Int)) :
    ∀ st : List (String × Int),
      (∀ p ∈ mods, p.1 ∈ keysOf st) →
      keysOf (mods.foldl
        (fun acc p => setKey acc p.1 ((getKey acc p.1).getD 0 + p.2)) st) =
        keysOf st := by
  induction mods with
  | nil => intro st _; rfl
  | cons p t ih =>
    intro st h
    have hp : p.1 ∈ keysOf st := h p (List.mem_cons_self _ _)
    rcases (mem_keysOf_iff st p.1).mp hp with ⟨w, hw⟩
    have hkeys : keysOf (setKey st p.1 ((getKey st p.1).getD 0 + p.2)) =
        keysOf st := keysOf_setKey _ _ _ _ hw
    rw [List.foldl_cons,
      ih _ (fun q hq => by rw [hkeys]; exact h q (List.mem_cons_of_mem _ hq)),
      hkeys]

theorem get_default_stats_keys (cls : String) :
    keysOf (get_default_stats cls) = keysOf BASE_STATS := by
  cases hm : getKey CLASS_MODIFIERS (lowerStr cls) with
  | none => simp [get_default_stats, hm]
  | some mods =>
    have hmem : (lowerStr cls, mods) ∈ CLASS_MODIFIERS := getKey_mem _ _ _ hm
    have hTable : ∀ e ∈ CLASS_MODIFIERS, ∀ p ∈ e.2, p.1 ∈ keysOf BASE_STATS := by
      decide
    simp only [get_default_stats, hm]
    exact foldl_mods_keys mods BASE_STATS (fun p hp => hTable _ hmem p hp)

/-- The fraction handed to `roundDiv` inside `calculate_xp_reward` is
exactly `base_xp * variation / 5` as a rational number. -/
theorem calculate_xp_reward_fraction_eq (b : Nat) (j : ℚ) :
    ((b : ℚ) * (j.num : ℚ)) / (5 * (j.den : ℚ)) = (b : ℚ) * j / 5 := by
  have hden : (j.den : ℚ) ≠ 0 := Nat.cast_ne_zero.mpr j.den_nz
  have hj : (j.num : ℚ) = j * (j.den : ℚ) :=
    (div_eq_iff hden).mp (Rat.num_div_den j)
  have h5 : (5 : ℚ) ≠ 0 := by norm_num
  rw [div_eq_div_iff (mul_ne_zero h5 hden) h5, hj]
  ring

/- ------------------------------------------------------------------ -/
/- Claim theorems.                                                     -/
/- ------------------------------------------------------------------ -/

/-- C1: for every character state and every `xpAmount > 0`, the result of
`add_experience` has `xp_total` equal to `state.experience + xpAmount`
exactly and reports `xp_gained` equal to the awarded amount. -/
theorem c1_xp_total_exact (ch : Character) (xp : Int) (h : 0 < xp) :
    (add_experience ch xp).xp_total = ch.experience + xp ∧
    (add_experience ch xp).xp_gained = xp := ⟨rfl, rfl⟩

/-- Witness for C1 at a concrete input. -/
theorem c1_xp_total_exact_witness :
    (0 : Int) < 250 ∧
    (add_experience warriorLvl1 250).xp_total = warriorLvl1.experience + 250 ∧
    (add_experience warriorLvl1 250).xp_gained = 250 :=
  ⟨by decide, (c1_xp_total_exact warriorLvl1 250 (by decide)).1,
   (c1_xp_total_exact warriorLvl1 250 (by decide)).2⟩

/-- C2 (code bug, evaluated at the failing input): a level-1 warrior with
empty stats/abilities gaining 3000 XP crosses levels 2 and 3 in one call.
The two records are emitted in ascending order and the level-2 record's
`ability_changes` correctly lists only "Improved Combat Techniques"; but
because `_process_level_up` snapshots the abilities dict with a shallow
`dict.copy()` (sharing the category lists), the level-2 record's
`new_abilities` snapshot already contains the level-3 ability
"Battle Cry", contradicting the claim that the first record's snapshot
does not contain abilities granted by the second level. -/
theorem c2_snapshot_aliasing :
    (add_experience warriorLvl1 3000).level_ups.map (fun r => r.level) = [2, 3] ∧
    (add_experience warriorLvl1 3000).level_ups.head?.map
      (fun r => r.ability_changes.map (fun a => a.name)) =
        some ["Improved Combat Techniques"] ∧
    (add_experience warriorLvl1 3000).level_ups.head?.map
      (fun r => getKey r.new_abilities "active") = some (some ["Battle Cry"]) := by
  decide

/-- C3: the exposed add-experience endpoint rejects `xp_amount ≤ 0` (so
both 0 and -5) with the InvalidAmount error (HTTP 400, detail "XP amount
must be greater than 0") and does not fail for that reason when
`xp_amount > 0`. -/
theorem c3_invalid_amount (ch : Character) (xp : Int) :
    (xp ≤ 0 →
      add_character_experience ch (some xp) =
        .error "XP amount must be greater than 0") ∧
    (0 < xp →
      add_character_experience ch (some xp) = .ok (add_experience ch xp)) := by
  constructor
  · intro h
    simp [add_character_experience, h]
  · intro h
    have h' : ¬xp ≤ 0 := not_le.mpr h
    simp [add_character_experience, h']

/-- Witness for C3 at the spec's concrete inputs 0 and -5, and a positive
amount. -/
theorem c3_invalid_amount_witness :
    add_character_experience warriorLvl1 (some 0) =
      .error "XP amount must be greater than 0" ∧
    add_character_experience warriorLvl1 (some (-5)) =
      .error "XP amount must be greater than 0" ∧
    add_character_experience warriorLvl1 (some 100) =
      .ok (add_experience warriorLvl1 100) :=
  ⟨(c3_invalid_amount warriorLvl1 0).1 (by decide),
   (c3_invalid_amount warriorLvl1 (-5)).1 (by decide),
   (c3_invalid_amount warriorLvl1 100).2 (by decide)⟩

/-- C4: for every starting state whose level is within the threshold
table (≤ 20, per the data model levels above the table maximum are not
reachable) and every `xpAmount > 0`, however large, the new level never
exceeds the table's highest level 20 and is never below the previous
level. -/
theorem c4_level_capped (ch : Character) (xp : Int) (h1 : 0 < xp)
    (h2 : ch.level ≤ 20) :
    (add_experience ch xp).new_level ≤ 20 ∧
    ch.level ≤ (add_experience ch xp).new_level := by
  rw [add_experience_new_level]
  exact ⟨loop_new_level_le _ _ _ _ _ 20 (by decide) h2,
         loop_new_level_ge _ _ _ _ _ (le_refl _)⟩

/-- Witness for C4 with a huge XP amount. -/
theorem c4_level_capped_witness :
    (0 : Int) < 10 ^ 9 ∧ warriorLvl1.level ≤ 20 ∧
    (add_experience warriorLvl1 (10 ^ 9)).new_level ≤ 20 ∧
    warriorLvl1.level ≤ (add_experience warriorLvl1 (10 ^ 9)).new_level :=
  ⟨by decide, by decide,
   (c4_level_capped warriorLvl1 (10 ^ 9) (by decide) (by decide)).1,
   (c4_level_capped warriorLvl1 (10 ^ 9) (by decide) (by decide)).2⟩

/-- C5 counterexample: the warrior level-2 bonus contains the delta
`("strength", 1)`, but on a working stats map that lacks the `strength`
key (here `{"dexterity": 10}`) the level-up applies nothing: the record
shows no stat changes and still no `strength` key — refuting the claim
that every delta is added regardless of which keys the working stats map
contains. -/
theorem c5_counterexample :
    bonusDeltas "warrior" 2 = [("strength", 1)] ∧
    (add_experience warriorOnlyDex 1000).level_ups.map (fun r => r.level) = [2] ∧
    (add_experience warriorOnlyDex 1000).level_ups.head?.map
      (fun r => (getKey r.new_stats "strength", r.stat_changes)) =
        some (none, []) := by
  decide

/-- C5 (amended): when a level-up is processed on a non-empty working
stats map, each `(stat, delta)` of the bonus entry is applied only when
the stat key is already present in the working map: a present key gets
`old + delta` together with a recorded old/new/delta change entry, while
an absent key is silently skipped — no value appears and no change entry
mentions it. -/
theorem c5_missing_keys_skipped (cc : String) (lvl : Nat)
    (stats : List (String × Int)) (ab : List (String × List String))
    (s : String) (d : Int)
    (hne : stats ≠ [])
    (hmem : (s, d) ∈ bonusDeltas cc lvl)
    (hnodup : ((bonusDeltas cc lvl).map (fun p => p.1)).Nodup) :
    (∀ old, getKey stats s = some old →
       getKey (process_level_up lvl cc stats ab).new_stats s = some (old + d) ∧
       (⟨s, old, old + d, d⟩ : StatChange) ∈
         (process_level_up lvl cc stats ab).stat_changes) ∧
    (getKey stats s = none →
       getKey (process_level_up lvl cc stats ab).new_stats s = none ∧
       ∀ c ∈ (process_level_up lvl cc stats ab).stat_changes, c.stat ≠ s) := by
  have hE : stats.isEmpty = false := by
    cases stats with
    | nil => exact absurd rfl hne
    | cons q qs => rfl
  have hb : (if stats.isEmpty then defaultStatBlock else stats) = stats := by
    rw [hE]; rfl
  simp only [process_level_up_new_stats, process_level_up_stat_changes, hb]
  have h := applyStatBonuses_applied (bonusDeltas cc lvl) s d hmem hnodup stats []
  refine ⟨h.1, fun hnone => ?_⟩
  rcases h.2 hnone with ⟨h1, h2⟩
  refine ⟨h1, fun c hc => ?_⟩
  rcases h2 c hc with hc' | hne'
  · exact absurd hc' (List.not_mem_nil c)
  · exact hne'

/-- Witness for C5 (amended): warrior level-2 on a dexterity-only map
skips the strength delta; on the full default block it applies it. -/
theorem c5_missing_keys_skipped_witness :
    (getKey (process_level_up 2 "warrior" [("dexterity", 10)] []).new_stats
        "strength" = none ∧
      ∀ c ∈ (process_level_up 2 "warrior" [("dexterity", 10)] []).stat_changes,
        c.stat ≠ "strength") ∧
    (getKey (process_level_up 2 "warrior" defaultStatBlock []).new_stats
        "strength" = some (10 + 1) ∧
      (⟨"strength", 10, 10 + 1, 1⟩ : StatChange) ∈
        (process_level_up 2 "warrior" defaultStatBlock []).stat_changes) :=
  ⟨(c5_missing_keys_skipped "warrior" 2 [("dexterity", 10)] [] "strength" 1
      (by decide) (by decide) (by decide)).2 (by decide),
   (c5_missing_keys_skipped "warrior" 2 defaultStatBlock [] "strength" 1
      (by decide) (by decide) (by decide)).1 10 (by decide)⟩

/-- C6 counterexample: a call with empty `state.stats` that crosses no
threshold never populates the stats — the returned character still has an
empty stats dict, not the fixed default block, refuting the claim that
the bootstrap happens on every call before processing proceeds. -/
theorem c6_counterexample :
    warriorLvl1.stats = [] ∧
    (add_experience warriorLvl1 5).level_ups = [] ∧
    (add_experience warriorLvl1 5).character.stats = [] ∧
    (add_experience warriorLvl1 5).character.stats ≠ defaultStatBlock := by
  decide

/-- C6 (amended): the bootstrap is performed lazily inside level-up
processing.  A call that crosses no threshold leaves stats and abilities
untouched (empty stays empty); in a call that crosses at least one
threshold, the first emitted record is computed from the default stat
block when the incoming stats dict was empty, from the incoming dict
as-is when it was non-empty (even partially populated), and from the
default empty passive/active/special lists when the abilities dict was
empty (in which case the resulting character's ability dict has exactly
those three keys). -/
theorem c6_lazy_bootstrap (ch : Character) (xp : Int) :
    ((add_experience ch xp).level_ups = [] →
       (add_experience ch xp).character.stats = ch.stats ∧
       (add_experience ch xp).character.abilities = ch.abilities) ∧
    (∀ r rest, (add_experience ch xp).level_ups = r :: rest →
       (ch.stats = [] →
          r.new_stats =
            (applyStatBonuses
              (bonusDeltas (lowerStr ch.character_class) r.level)
              (defaultStatBlock, [])).1 ∧
          r.stat_changes =
            (applyStatBonuses
              (bonusDeltas (lowerStr ch.character_class) r.level)
              (defaultStatBlock, [])).2) ∧
       (ch.stats ≠ [] →
          r.new_stats =
            (applyStatBonuses
              (bonusDeltas (lowerStr ch.character_class) r.level)
              (ch.stats, [])).1) ∧
       (ch.abilities = [] →
          r.ability_changes =
            (applyAbilityBonuses (lowerStr ch.character_class)
              (bonusAbilities (lowerStr ch.character_class) r.level)
              (defaultAbilityBlock, [])).2 ∧
          keysOf (add_experience ch xp).character.abilities =
            ["passive", "active", "special"])) := by
  constructor
  · intro h
    rw [add_experience_level_ups] at h
    have hnil : (addExpLoop ch xp).level_ups = [] := List.map_eq_nil_iff.mp h
    have heq : addExpLoop ch xp = initAcc ch :=
      loop_eq_of_ups_eq _ _ _ _ _ hnil
    rw [add_experience_character, heq]
    simp only [initAcc]
    rw [if_neg (lt_irrefl ch.level)]
    exact ⟨rfl, rfl⟩
  · intro r rest h
    rw [add_experience_level_ups] at h
    cases hl : (addExpLoop ch xp).level_ups with
    | nil => rw [hl] at h; cases h
    | cons r0 rest0 =>
      rw [hl] at h
      simp only [List.map_cons] at h
      have hr : r = { r0 with new_abilities := (addExpLoop ch xp).abilities } := by
        injection h with h1 _
        exact h1.symm
      have hr_stats : r.new_stats = r0.new_stats := by rw [hr]
      have hr_statch : r.stat_changes = r0.stat_changes := by rw [hr]
      have hr_abch : r.ability_changes = r0.ability_changes := by rw [hr]
      have hr_level : r.level = r0.level := by rw [hr]
      rcases loop_head ch.level (ch.experience + xp)
          (lowerStr ch.character_class) LEVEL_XP_REQUIREMENTS (initAcc ch)
          r0 rest0 rfl hl with ⟨e, _, _, hr0⟩
      have hrl : r.level = e.1 := by
        rw [hr_level, hr0, process_level_up_level]
      refine ⟨?_, ?_, ?_⟩
      · intro hstats
        constructor
        · rw [hr_stats, hrl, hr0, process_level_up_new_stats]
          simp [initAcc, hstats]
        · rw [hr_statch, hrl, hr0, process_level_up_stat_changes]
          simp [initAcc, hstats]
      · intro hstats
        have hE : ch.stats.isEmpty = false := by
          cases hs : ch.stats with
          | nil => exact absurd hs hstats
          | cons q qs => rfl
        rw [hr_stats, hrl, hr0, process_level_up_new_stats]
        simp [initAcc, hE]
      · intro hab
        constructor
        · rw [hr_abch, hrl, hr0, process_level_up_ability_changes]
          simp [initAcc, hab]
        · have hinv := loop_abilities_keys ch.level (ch.experience + xp)
            (lowerStr ch.character_class) LEVEL_XP_REQUIREMENTS (initAcc ch)
            (Or.inl (by simp [initAcc, hab]))
            (fun hne => absurd rfl hne)
          have hups : (addExpLoop ch xp).level_ups ≠ [] := by
            rw [hl]; simp
          have hkeys := hinv.2 hups
          have hlt : ch.level < (addExpLoop ch xp).new_level :=
            loop_ups_ne_gt _ _ _ _ _ (fun hne => absurd rfl hne) hups
          rw [add_experience_character, if_pos hlt]
          exact hkeys

/-- Witness for C6 (amended) at concrete inputs: a no-level-up call on
empty dicts, a level-up call on empty dicts, and a level-up call on a
non-empty stats dict. -/
theorem c6_lazy_bootstrap_witness :
    ((add_experience warriorLvl1 5).character.stats = warriorLvl1.stats ∧
     (add_experience warriorLvl1 5).character.abilities =
       warriorLvl1.abilities) ∧
    ((process_level_up 2 "warrior" [] []).new_stats =
       (applyStatBonuses (bonusDeltas "warrior" 2) (defaultStatBlock, [])).1 ∧
     (process_level_up 2 "warrior" [] []).stat_changes =
       (applyStatBonuses (bonusDeltas "warrior" 2) (defaultStatBlock, [])).2) ∧
    ((process_level_up 2 "warrior" [] []).ability_changes =
       (applyAbilityBonuses "warrior" (bonusAbilities "warrior" 2)
         (defaultAbilityBlock, [])).2 ∧
     keysOf (add_experience warriorLvl1 1000).character.abilities =
       ["passive", "active", "special"]) ∧
    (process_level_up 2 "warrior" [("dexterity", 10)] []).new_stats =
      (applyStatBonuses (bonusDeltas "warrior" 2)
        ([("dexterity", 10)], [])).1 :=
  ⟨(c6_lazy_bootstrap warriorLvl1 5).1 (by decide),
   ((c6_lazy_bootstrap warriorLvl1 1000).2
      (process_level_up 2 "warrior" [] []) [] (by decide)).1 rfl,
   ((c6_lazy_bootstrap warriorLvl1 1000).2
      (process_level_up 2 "warrior" [] []) [] (by decide)).2.2 rfl,
   ((c6_lazy_bootstrap warriorOnlyDex 1000).2
      (process_level_up 2 "warrior" [("dexterity", 10)] []) [] (by decide)).2.1
      (by decide)⟩

/-- C7: with the jitter factor fixed at 0.9 (`mkRat 9 10 = 9/10`),
`calculate_xp_reward` returns exactly 90, 360, 90, 1080 and 90 on the
five inputs of the claim (the last through the fallback default
sub-table). -/
theorem c7_reward_values :
    (mkRat 9 10 : ℚ) = 9 / 10 ∧
    calculate_xp_reward "combat" "easy" true (mkRat 9 10) = 90 ∧
    calculate_xp_reward "combat" "hard" true (mkRat 9 10) = 360 ∧
    calculate_xp_reward "combat" "medium" false (mkRat 9 10) = 90 ∧
    calculate_xp_reward "quest" "major" true (mkRat 9 10) = 1080 ∧
    calculate_xp_reward "unknown_type" "medium" true (mkRat 9 10) = 90 :=
  ⟨by norm_num [Rat.mkRat_eq_div], by decide, by decide, by decide, by decide,
   by decide⟩

/-- C8: for every action type, difficulty, success flag and jitter in
[0.9, 1.1], the reward is a multiple of 5 and at least 5. -/
theorem c8_reward_multiple_of_five (a d : String) (s : Bool) (j : ℚ)
    (h1 : mkRat 9 10 ≤ j) (h2 : j ≤ mkRat 11 10) :
    5 ∣ calculate_xp_reward a d s j ∧ 5 ≤ calculate_xp_reward a d s j := by
  have aux : ∀ r : ℤ, 5 ∣ max 5 (r * 5) ∧ 5 ≤ max 5 (r * 5) := by
    intro r
    refine ⟨?_, le_max_left _ _⟩
    rcases le_total (5 : ℤ) (r * 5) with h | h
    · rw [max_eq_right h]
      exact ⟨r, by ring⟩
    · rw [max_eq_left h]
  exact aux _

/-- Witness for C8 at jitter 1 on a concrete action. -/
theorem c8_reward_multiple_of_five_witness :
    mkRat 9 10 ≤ mkRat 1 1 ∧ mkRat 1 1 ≤ mkRat 11 10 ∧
    5 ∣ calculate_xp_reward "combat" "easy" true (mkRat 1 1) ∧
    5 ≤ calculate_xp_reward "combat" "easy" true (mkRat 1 1) :=
  ⟨by decide, by decide,
   (c8_reward_multiple_of_five "combat" "easy" true (mkRat 1 1)
      (by decide) (by decide)).1,
   (c8_reward_multiple_of_five "combat" "easy" true (mkRat 1 1)
      (by decide) (by decide)).2⟩

/-- C9: the ability classifier normalizes the id and classifies via exact
match, then first substring match in insertion order, then the `active`
default — giving the claim's four values (plus a normalization check on
"Berserker Rage"). -/
theorem c9_classifier_values :
    get_ability_type "power_strike" "warrior" = some "active" ∧
    get_ability_type "improved_critical" "warrior" = some "passive" ∧
    get_ability_type "berserker_rage" "warrior" = some "special" ∧
    get_ability_type "totally_unknown_ability" "warrior" = some "active" ∧
    get_ability_type "Berserker Rage" "warrior" = some "special" :=
  ⟨by decide, by decide, by decide, by decide, by decide⟩

/-- C10 counterexample: `create_character` stores the class default stats
under the `"attributes"` key and sets no `"stats"` key, so the engine
reads an empty stats dict for a freshly created warrior, and on its first
level-up the engine's own bootstrap block (including `health = 100`,
which `get_default_stats` never produces) is installed — refuting the
claim that a created character starts with a non-empty stats map and
never triggers that bootstrap. -/
theorem c10_counterexample :
    (createdCharacter "warrior").stats = [] ∧
    (add_experience (createdCharacter "warrior") 1000).level_ups.map
      (fun r => r.level) = [2] ∧
    (add_experience (createdCharacter "warrior") 1000).level_ups.head?.map
      (fun r => getKey r.new_stats "health") = some (some 100) ∧
    getKey (get_default_stats "warrior") "health" = none := by
  decide

/-- C10 (amended): for every character class, `get_default_stats`
contains exactly the six core stats with class modifiers applied (warrior
strength = 15), no health or mana keys, is non-empty and differs from the
engine's bootstrap block; but `create_character` stores it under
`"attributes"`, so the engine sees an empty stats dict for a created
character and its bootstrap does fire on the first level-up. -/
theorem c10_default_stats_core_only (cls : String) :
    keysOf (get_default_stats cls) =
      ["strength", "dexterity", "constitution", "intelligence", "wisdom",
       "charisma"] ∧
    getKey (get_default_stats cls) "health" = none ∧
    getKey (get_default_stats cls) "mana" = none ∧
    get_default_stats cls ≠ [] ∧
    get_default_stats cls ≠ defaultStatBlock ∧
    getKey (get_default_stats "warrior") "strength" = some 15 ∧
    (createdCharacter cls).stats = [] ∧
    getKey (add_experience (createdCharacter "warrior") 1000).character.stats
      "health" = some 100 := by
  have hkeys : keysOf (get_default_stats cls) =
      ["strength", "dexterity", "constitution", "intelligence", "wisdom",
       "charisma"] := by
    rw [get_default_stats_keys]; rfl
  refine ⟨hkeys, ?_, ?_, ?_, ?_, by decide, rfl, by decide⟩
  · cases hg : getKey (get_default_stats cls) "health" with
    | none => rfl
    | some v =>
      have hmem : "health" ∈ keysOf (get_default_stats cls) :=
        (mem_keysOf_iff _ _).mpr ⟨v, hg⟩
      rw [hkeys] at hmem
      exact absurd hmem (by decide)
  · cases hg : getKey (get_default_stats cls) "mana" with
    | none => rfl
    | some v =>
      have hmem : "mana" ∈ keysOf (get_default_stats cls) :=
        (mem_keysOf_iff _ _).mpr ⟨v, hg⟩
      rw [hkeys] at hmem
      exact absurd hmem (by decide)
  · intro h0
    have hk := hkeys
    rw [h0] at hk
    exact absurd hk (by decide)
  · intro h0
    have hk := hkeys
    rw [h0] at hk
    exact absurd hk (by decide)

end BobbyApp
